import Mathlib

/-!
Verification of the audit stripe sampler (`pkg/audit/cursor.go`) of the
storj repository.

The Go source is shallowly embedded below.  External collaborators are
represented as oracles supplied to the embedded functions:

* the Segment Index (`pointerdb.Service`) becomes a `PointerDB` record of
  response functions (`list` indexed by the listing attempt number, `get`
  indexed by the selection attempt number, `delete` by path; an `Except`
  error models a non-nil Go error, `delete` returning `none` models a nil
  error);
* the entropy source behind `crypto/rand.Int` becomes an `Entropy` record:
  the draw of the i-th selection attempt and the stripe draw each either
  fail (`none`, a `rand.Reader` failure) or yield a natural number whose
  remainder modulo the requested bound models the uniformly distributed
  result of `rand.Int` (which always lies in `[0, max)`);
* `eestream.NewRedundancyStrategyFromProto` followed by `StripeSize` is a
  `resolve` oracle parameter (the spec treats the Redundancy Resolver as an
  external collaborator); a concrete instance modelled from the spec is
  given as `resolveStripeSize`;
* `time.Now()` becomes a `now : Int` parameter (one wall-clock reading per
  call); `t.Before(now)` is strict `<`;
* `context.Context` becomes `Ctx` (`true` = cancelled).  The Go body never
  consults `ctx`, and correspondingly the embedded functions ignore it.

Go panics (rand.Int with non-positive max, out-of-range indexing, integer
division by zero) are modelled as dedicated error values so that every
function is total.  Go's truncating `int64` division is `Int.tdiv`.
-/

namespace Audit

/-- Errors a call can end with, tagged by provenance.  Oracle failures carry
an opaque `Nat` payload standing for the underlying Go error value. -/
inductive AuditErr where
  | listFail (e : Nat)
  | getFail (e : Nat)
  | deleteFail (e : Nat)
  | exhaustedListing
  | exhaustedSampling
  | timestampFail
  | randFail
  | randPanic
  | indexPanic
  | divByZeroPanic
  | resolverFail (e : Nat)
deriving DecidableEq, Repr

/-- pb.RedundancyScheme: the fields of the proto message the audit and the
resolver consume. -/
structure RedundancyScheme where
  minReq : Int
  total : Int
  repairThreshold : Int
  successThreshold : Int
  erasureShareSize : Int
deriving DecidableEq, Repr

/-- pb.Pointer's type enum: INLINE or REMOTE. -/
inductive PointerType where
  | inline
  | remote
deriving DecidableEq, Repr

/-- A proto expiration timestamp: `t` is the instant it decodes to and `ok`
whether `ptypes.Timestamp` decoding succeeds on it. -/
structure TsProto where
  t : Int
  ok : Bool
deriving DecidableEq, Repr

/-- pb.RemoteSegment, restricted to the field the sampler reads. -/
structure RemoteSegment where
  redundancy : Option RedundancyScheme
deriving DecidableEq, Repr

/-- pb.Pointer, restricted to the fields the sampler reads.  The `Option`
fields model nil proto sub-messages. -/
structure Pointer where
  ptrType : PointerType
  segmentSize : Int
  expirationDate : Option TsProto
  remote : Option RemoteSegment
deriving DecidableEq, Repr

/-- pb.ListResponse_Item, restricted to the `Path` field. -/
structure ListItem where
  path : String
deriving DecidableEq, Repr

/-- Stripe keeps track of a stripe's index and its parent segment
(cursor.go lines 27-32).  `Segment` is an `Option` because the Go field is
a pointer that can be nil. -/
structure Stripe where
  Index : Int
  Segment : Option Pointer
  SegmentPath : String
deriving DecidableEq, Repr

/-- The mutable state of a `Cursor` (cursor.go lines 34-39) apart from the
lock: the last path listed. -/
structure CursorState where
  lastPath : String
deriving DecidableEq, Repr

/-- The Segment Index (pointerdb.Service) as a response oracle.  `list k s`
is the response to the k-th `List("", s, "", true, 0, meta.None)` call of
the invocation, `get i p` the response to the `Get(p)` of selection attempt
`i`, `delete p` the error (none = nil) returned by `Delete(p)`. -/
structure PointerDB where
  list : Nat → String → Except Nat (List ListItem × Bool)
  get : Nat → String → Except Nat Pointer
  delete : String → Option Nat

/-- The entropy source behind `crypto/rand.Int`: `item i` is the draw of
selection attempt `i`, `stripe` the draw of `getRandomStripe`.  `none`
models a failure of the underlying reader. -/
structure Entropy where
  item : Nat → Option Nat
  stripe : Option Nat

/-- The cancellation input of `NextStripe(ctx)`: `true` means cancelled.
The Go body never reads `ctx` (it is not passed to List/Get/Delete). -/
def Ctx := Bool

/-- Model of `crypto/rand.Int(rand.Reader, big.NewInt(max))`: panics when
`max ≤ 0`, fails when the reader fails, and otherwise returns a value that
is uniform over `[0, max)` - modelled as the draw reduced modulo `max`. -/
def randInt (d : Option Nat) (max : Int) : Except AuditErr Int :=
  if max ≤ 0 then .error .randPanic
  else
    match d with
    | none => .error .randFail
    | some r => .ok (Int.emod (Int.ofNat r) max)

/-- getRandomPointer (cursor.go lines 150-157): draw a random index over
the page and return that item.  An out-of-range index would be a Go panic
(`indexPanic`); it is proved unreachable below. -/
def getRandomPointer (pointerItems : List ListItem) (d : Option Nat) :
    Except AuditErr ListItem :=
  match randInt d (Int.ofNat pointerItems.length) with
  | .error e => .error e
  | .ok r =>
      if h : r.toNat < pointerItems.length then .ok (pointerItems.get ⟨r.toNat, h⟩)
      else .error .indexPanic

/-- The cursor update of cursor.go lines 98-103: reset `lastPath` to the
empty string when no more pages remain, else set it to the path of the last
item of the page.  (`pointerItems[len(pointerItems)-1]` on an empty page
would panic in Go; the call site guarantees a non-empty page.) -/
def pageLastPath (pointerItems : List ListItem) (more : Bool) : String :=
  if !more then "" else ((pointerItems.getLast?.map ListItem.path).getD "")

/-- Nil-safe `pointer.GetRemote().GetRedundancy()` on a possibly-nil
pointer. -/
def getRedundancyOf (pointer : Option Pointer) : Option RedundancyScheme :=
  match pointer with
  | none => none
  | some p =>
      match p.remote with
      | none => none
      | some r => r.redundancy

/-- Nil-safe `pointer.GetSegmentSize()` on a possibly-nil pointer. -/
def getSegmentSizeOf (pointer : Option Pointer) : Int :=
  match pointer with
  | none => 0
  | some p => p.segmentSize

/-- The loop body of getRandomValidPointer (cursor.go lines 92-126).  The
first `Nat` is the remaining number of attempts, the second the index `i`
of the current attempt (used to address the oracles).  Falling out of the
loop returns the Exhausted-Sampling error (line 128).  The duplicated
validity check mirrors the Go fall-through from the expiration block to the
`REMOTE`/size check (lines 121-123). -/
def getRandomValidPointerAux (db : PointerDB) (ent : Entropy) (now : Int)
    (pointerItems : List ListItem) (more : Bool) :
    Nat → Nat → CursorState → Except AuditErr (Option Pointer) × CursorState
  | 0, _, st => (.error .exhaustedSampling, st)
  | rem + 1, i, st =>
    match getRandomPointer pointerItems (ent.item i) with
    | .error e => (.error e, st)
    | .ok pointerItem =>
      -- keep track of last path listed (lines 98-103)
      let st1 : CursorState := ⟨pageLastPath pointerItems more⟩
      match db.get i pointerItem.path with
      | .error e => (.error (.getFail e), st1)
      | .ok pointer =>
        -- delete expired items rather than auditing them (lines 110-119)
        match pointer.expirationDate with
        | some expiration =>
          if expiration.ok = false then (.error .timestampFail, st1)
          else if expiration.t < now then
            match db.delete pointerItem.path with
            | none => (.ok none, st1)
            | some e => (.error (.deleteFail e), st1)
          else
            if pointer.ptrType ≠ PointerType.remote ∨ pointer.segmentSize = 0 then
              getRandomValidPointerAux db ent now pointerItems more rem (i + 1) st1
            else (.ok (some pointer), st1)
        | none =>
          if pointer.ptrType ≠ PointerType.remote ∨ pointer.segmentSize = 0 then
            getRandomValidPointerAux db ent now pointerItems more rem (i + 1) st1
          else (.ok (some pointer), st1)

/-- getRandomValidPointer (cursor.go lines 91-129).  The `.ok none` result
is the Go `(nil, nil)` return after a successful deletion of an expired
pointer. -/
def getRandomValidPointer (db : PointerDB) (ent : Entropy) (now : Int)
    (pointerItems : List ListItem) (more : Bool) (retryAttempts : Nat)
    (st : CursorState) : Except AuditErr (Option Pointer) × CursorState :=
  getRandomValidPointerAux db ent now pointerItems more retryAttempts 0 st

def maxListAttempts : Nat := 4

def maxGetAttempts : Nat := 4

/-- The listing loop of NextStripe (cursor.go lines 57-72) together with
the post-loop emptiness check: the first `Nat` is the remaining attempt
budget, the second the index of the current `List` call.  Running out of
attempts with only empty pages yields the Exhausted-Listing error
(line 71). -/
def listPhase (listFn : Nat → Except Nat (List ListItem × Bool)) :
    Nat → Nat → Except AuditErr (List ListItem × Bool)
  | 0, _ => .error .exhaustedListing
  | rem + 1, k =>
    match listFn k with
    | .error e => .error (.listFail e)
    | .ok (pointerItems, more) =>
      if pointerItems.length = 0 then listPhase listFn rem (k + 1)
      else .ok (pointerItems, more)

/-- getRandomStripe (cursor.go lines 131-148): resolve the stripe size via
the external Redundancy Resolver oracle, return index 0 for a short final
segment, else draw a random stripe index in
`[0, segmentSize / stripeSize)` (Go truncating division `Int.tdiv`; the
division-by-zero and the non-positive `rand.Int` bound are Go panics). -/
def getRandomStripe (resolve : Option RedundancyScheme → Except Nat Int)
    (ent : Entropy) (pointer : Option Pointer) : Except AuditErr Int :=
  match resolve (getRedundancyOf pointer) with
  | .error e => .error (.resolverFail e)
  | .ok stripeSize =>
    -- the last segment could be smaller than stripe size (line 137)
    if getSegmentSizeOf pointer < stripeSize then .ok 0
    else if stripeSize = 0 then .error .divByZeroPanic
    else randInt ent.stripe (Int.tdiv (getSegmentSizeOf pointer) stripeSize)

/-- NextStripe (cursor.go lines 49-89).  The local `path` is the `var path
storj.Path` of line 54, which the Go code never assigns, so `SegmentPath`
is always the empty string.  The `ctx` argument is bound but never used by
the Go body. -/
def NextStripe (_ctx : Ctx) (db : PointerDB)
    (resolve : Option RedundancyScheme → Except Nat Int)
    (ent : Entropy) (now : Int) (st : CursorState) :
    Except AuditErr (Option Stripe) × CursorState :=
  let path : String := ""
  match listPhase (fun k => db.list k st.lastPath) maxListAttempts 0 with
  | .error e => (.error e, st)
  | .ok (pointerItems, more) =>
    match getRandomValidPointer db ent now pointerItems more maxGetAttempts st with
    | (.error e, st1) => (.error e, st1)
    | (.ok pointer, st1) =>
      match getRandomStripe resolve ent pointer with
      | .error e => (.error e, st1)
      | .ok index =>
          (.ok (some { Index := index, Segment := pointer, SegmentPath := path }), st1)

/-- Modelled from the spec: the external Redundancy Resolver
(`eestream.NewRedundancyStrategyFromProto` followed by `StripeSize`, not
under src/).  Per spec §2 and §6 it converts the erasure parameters
(minimum required pieces, totals, erasure share size) into the stripe size
in bytes, and per §4.1 it can fail, the failure propagating as-is.  A
scheme that does not describe a valid erasure layout - fewer than one
required piece, or more required than total pieces - is rejected; in
particular the absent (nil) scheme read off a nil pointer, whose parameters
all read as zero, is rejected. -/
def resolveStripeSize (s : Option RedundancyScheme) : Except Nat Int :=
  match s with
  | none => .error 0
  | some s =>
      if s.minReq ≤ 0 ∨ s.total < s.minReq then .error 0
      else .ok (s.erasureShareSize * s.minReq)

/-- A pointer that passes the expiration block of cursor.go lines 110-119
without returning: no expiration date, or one that decodes and is not
strictly in the past. -/
def livePointer (now : Int) (p : Pointer) : Bool :=
  match p.expirationDate with
  | none => true
  | some e => e.ok && !(decide (e.t < now))

/-- Whether a call result is the Go `(nil, nil)` outcome. -/
def isNilNil (res : Except AuditErr (Option Stripe) × CursorState) : Bool :=
  match res.1 with
  | .ok none => true
  | _ => false


/-! Concrete fixtures used by witnesses and counterexample evaluations. -/

/-- Entropy source whose draws always succeed with value 0. -/
def entC : Entropy := ⟨fun _ => some 0, some 0⟩

/-- The initial cursor state: empty `lastPath`. -/
def st0 : CursorState := ⟨""⟩

/-- The redundancy scheme of the src test `makePutRequest`: MinReq 1,
Total 3, RepairThreshold 2, SuccessThreshold 3, ErasureShareSize 2. -/
def schemeC : RedundancyScheme := ⟨1, 3, 2, 3, 2⟩

/-- A valid pointer: Remote, segment size 10, no expiration. -/
def ptrValid : Pointer := ⟨.remote, 10, none, some ⟨some schemeC⟩⟩

/-- An expired pointer: Remote, but expiration instant 0, decoding fine. -/
def ptrExpired : Pointer := ⟨.remote, 10, some ⟨0, true⟩, some ⟨some schemeC⟩⟩

/-- An inline (non-auditable) pointer. -/
def ptrInline : Pointer := ⟨.inline, 5, none, none⟩

/-- Index holding exactly one valid pointer at path "vp", final page. -/
def dbValid : PointerDB :=
  ⟨fun _ _ => .ok ([⟨"vp"⟩], false), fun _ _ => .ok ptrValid, fun _ => none⟩

/-- Index holding exactly one expired pointer at path "xp"; deletion
succeeds. -/
def dbExpired : PointerDB :=
  ⟨fun _ _ => .ok ([⟨"xp"⟩], false), fun _ _ => .ok ptrExpired, fun _ => none⟩

/-- Index whose listing always returns the empty page. -/
def dbEmptyList : PointerDB :=
  ⟨fun _ _ => .ok ([], false), fun _ _ => .error 0, fun _ => none⟩

/-- Index whose page holds an inline pointer at "ip" and a valid one at
"vp", with more pages remaining. -/
def dbMixed : PointerDB :=
  ⟨fun _ _ => .ok ([⟨"ip"⟩, ⟨"vp"⟩], true),
   fun _ p => if p = "ip" then .ok ptrInline else .ok ptrValid,
   fun _ => none⟩


theorem getRandomPointer_ok (pointerItems : List ListItem) (r : Nat)
    (hne : pointerItems ≠ []) :
    ∃ h : r % pointerItems.length < pointerItems.length,
      getRandomPointer pointerItems (some r)
        = .ok (pointerItems.get ⟨r % pointerItems.length, h⟩) := by
  have hlen : 0 < pointerItems.length := List.length_pos.mpr hne
  have hmod : r % pointerItems.length < pointerItems.length := Nat.mod_lt _ hlen
  refine ⟨hmod, ?_⟩
  have h1 : ¬ (Int.ofNat pointerItems.length ≤ 0) := by
    simp only [Int.ofNat_eq_coe]
    omega
  have h2 : Int.emod (Int.ofNat r) (Int.ofNat pointerItems.length)
      = Int.ofNat (r % pointerItems.length) := by
    simp only [Int.ofNat_eq_coe]
    norm_cast
  have h3 : (Int.ofNat (r % pointerItems.length)).toNat = r % pointerItems.length := by
    simp only [Int.ofNat_eq_coe, Int.toNat_natCast]
  simp only [getRandomPointer, randInt, if_neg h1, h2]
  rw [dif_pos (by rw [h3]; exact hmod)]
  congr 1

theorem getRandomPointer_mem (pointerItems : List ListItem) (r : Nat) (item : ListItem)
    (hne : pointerItems ≠ [])
    (h : getRandomPointer pointerItems (some r) = .ok item) : item ∈ pointerItems := by
  obtain ⟨hb, heq⟩ := getRandomPointer_ok pointerItems r hne
  rw [heq] at h
  cases h
  exact List.get_mem _ _ _


theorem listPhase_ok_ne_nil (listFn : Nat → Except Nat (List ListItem × Bool)) :
    ∀ fuel k items more, listPhase listFn fuel k = .ok (items, more) → items ≠ [] := by
  intro fuel
  induction fuel with
  | zero => intro k items more h; simp [listPhase] at h
  | succ n ih =>
    intro k items more h
    rw [listPhase] at h
    split at h
    · simp at h
    · split at h
      · exact ih _ _ _ h
      · rename_i its m hfn hlen
        cases h
        exact fun hnil => hlen (by simp [hnil])

theorem listPhase_all_empty (listFn : Nat → Except Nat (List ListItem × Bool)) :
    ∀ fuel k, (∀ j, j < fuel → ∃ b, listFn (k + j) = .ok ([], b)) →
      listPhase listFn fuel k = .error .exhaustedListing := by
  intro fuel
  induction fuel with
  | zero => intro k _; rfl
  | succ n ih =>
    intro k hall
    obtain ⟨b, hb⟩ := hall 0 (Nat.succ_pos n)
    rw [listPhase]
    rw [Nat.add_zero] at hb
    rw [hb]
    simp only [List.length_nil, if_pos rfl]
    exact ih (k + 1) (fun j hj => by
      obtain ⟨b2, hb2⟩ := hall (j + 1) (Nat.succ_lt_succ hj)
      exact ⟨b2, by rw [← hb2]; ring_nf⟩)

theorem listPhase_first_nonempty (listFn : Nat → Except Nat (List ListItem × Bool))
    (fuel k : Nat) (items : List ListItem) (more : Bool)
    (hfn : listFn k = .ok (items, more)) (hne : items ≠ []) :
    listPhase listFn (fuel + 1) k = .ok (items, more) := by
  rw [listPhase, hfn]
  simp only [List.length_eq_zero, if_neg hne]

theorem listPhase_err (listFn : Nat → Except Nat (List ListItem × Bool))
    (fuel k : Nat) (e : Nat) (hfn : listFn k = .error e) :
    listPhase listFn (fuel + 1) k = .error (.listFail e) := by
  rw [listPhase, hfn]



theorem gRVPAux_valid (db : PointerDB) (ent : Entropy) (now : Int)
    (items : List ListItem) (more : Bool) :
    ∀ rem i st p st1,
      getRandomValidPointerAux db ent now items more rem i st = (.ok (some p), st1) →
      p.ptrType = PointerType.remote ∧ p.segmentSize ≠ 0 ∧ livePointer now p = true := by
  intro rem
  induction rem with
  | zero => intro i st p st1 h; simp [getRandomValidPointerAux] at h
  | succ n ih =>
    intro i st p st1 h
    rw [getRandomValidPointerAux] at h
    cases hgp : getRandomPointer items (ent.item i) with
    | error e => simp only [hgp] at h; simp at h
    | ok item =>
      simp only [hgp] at h
      cases hget : db.get i item.path with
      | error e => simp only [hget] at h; simp at h
      | ok pointer =>
        simp only [hget] at h
        cases hexp : pointer.expirationDate with
        | some expiration =>
          simp only [hexp] at h
          by_cases hok : expiration.ok = false
          · rw [if_pos hok] at h
            simp at h
          · rw [if_neg hok] at h
            by_cases hlt : expiration.t < now
            · rw [if_pos hlt] at h
              cases hdel : db.delete item.path with
              | none => simp only [hdel] at h; simp at h
              | some e => simp only [hdel] at h; simp at h
            · rw [if_neg hlt] at h
              by_cases hval : pointer.ptrType ≠ PointerType.remote ∨ pointer.segmentSize = 0
              · rw [if_pos hval] at h
                exact ih _ _ _ _ h
              · rw [if_neg hval] at h
                rw [Prod.mk.injEq] at h
                obtain ⟨h1, h2⟩ := h
                injection h1 with h1
                injection h1 with h1
                subst h1
                push_neg at hval
                refine ⟨hval.1, hval.2, ?_⟩
                have hok2 : expiration.ok = true := by
                  revert hok; cases expiration.ok <;> simp
                simp [livePointer, hexp, hok2, hlt]
        | none =>
          simp only [hexp] at h
          by_cases hval : pointer.ptrType ≠ PointerType.remote ∨ pointer.segmentSize = 0
          · rw [if_pos hval] at h
            exact ih _ _ _ _ h
          · rw [if_neg hval] at h
            rw [Prod.mk.injEq] at h
            obtain ⟨h1, h2⟩ := h
            injection h1 with h1
            injection h1 with h1
            subst h1
            push_neg at hval
            exact ⟨hval.1, hval.2, by simp [livePointer, hexp]⟩


theorem gRVPAux_snd (db : PointerDB) (ent : Entropy) (now : Int)
    (items : List ListItem) (more : Bool) :
    ∀ rem i st,
      (getRandomValidPointerAux db ent now items more rem i st).2 = st ∨
      (getRandomValidPointerAux db ent now items more rem i st).2
        = ⟨pageLastPath items more⟩ := by
  intro rem
  induction rem with
  | zero => intro i st; left; rfl
  | succ n ih =>
    intro i st
    rw [getRandomValidPointerAux]
    cases hgp : getRandomPointer items (ent.item i) with
    | error e => left; rfl
    | ok item =>
      dsimp only
      cases hget : db.get i item.path with
      | error e => right; rfl
      | ok pointer =>
        dsimp only
        cases hexp : pointer.expirationDate with
        | some expiration =>
          dsimp only
          by_cases hok : expiration.ok = false
          · rw [if_pos hok]; right; rfl
          · rw [if_neg hok]
            by_cases hlt : expiration.t < now
            · rw [if_pos hlt]
              cases hdel : db.delete item.path with
              | none => right; rfl
              | some e => right; rfl
            · rw [if_neg hlt]
              by_cases hval : pointer.ptrType ≠ PointerType.remote ∨ pointer.segmentSize = 0
              · rw [if_pos hval]
                rcases ih (i + 1) ⟨pageLastPath items more⟩ with h | h
                · right; exact h
                · right; exact h
              · rw [if_neg hval]; right; rfl
        | none =>
          dsimp only
          by_cases hval : pointer.ptrType ≠ PointerType.remote ∨ pointer.segmentSize = 0
          · rw [if_pos hval]
            rcases ih (i + 1) ⟨pageLastPath items more⟩ with h | h
            · right; exact h
            · right; exact h
          · rw [if_neg hval]; right; rfl

theorem gRVPAux_enter (db : PointerDB) (ent : Entropy) (now : Int)
    (items : List ListItem) (more : Bool) (n i : Nat) (st : CursorState) (r : Nat)
    (hent : ent.item i = some r) (hne : items ≠ []) :
    (getRandomValidPointerAux db ent now items more (n + 1) i st).2
      = ⟨pageLastPath items more⟩ := by
  rw [getRandomValidPointerAux]
  obtain ⟨hb, heq⟩ := getRandomPointer_ok items r hne
  rw [hent, heq]
  dsimp only
  cases hget : db.get i (items.get ⟨r % items.length, hb⟩).path with
  | error e => rfl
  | ok pointer =>
    dsimp only
    cases hexp : pointer.expirationDate with
    | some expiration =>
      dsimp only
      by_cases hok : expiration.ok = false
      · rw [if_pos hok]
      · rw [if_neg hok]
        by_cases hlt : expiration.t < now
        · rw [if_pos hlt]
          cases hdel : db.delete (items.get ⟨r % items.length, hb⟩).path with
          | none => rfl
          | some e => rfl
        · rw [if_neg hlt]
          by_cases hval : pointer.ptrType ≠ PointerType.remote ∨ pointer.segmentSize = 0
          · rw [if_pos hval]
            rcases gRVPAux_snd db ent now items more n (i + 1) ⟨pageLastPath items more⟩
              with h | h
            · exact h
            · exact h
          · rw [if_neg hval]
    | none =>
      dsimp only
      by_cases hval : pointer.ptrType ≠ PointerType.remote ∨ pointer.segmentSize = 0
      · rw [if_pos hval]
        rcases gRVPAux_snd db ent now items more n (i + 1) ⟨pageLastPath items more⟩
          with h | h
        · exact h
        · exact h
      · rw [if_neg hval]


theorem gRVPAux_congr (db db2 : PointerDB) (ent : Entropy) (now : Int)
    (items : List ListItem) (more : Bool)
    (hget : db.get = db2.get) (hdel : db.delete = db2.delete) :
    ∀ rem i st,
      getRandomValidPointerAux db ent now items more rem i st
        = getRandomValidPointerAux db2 ent now items more rem i st := by
  intro rem
  induction rem with
  | zero => intro i st; rfl
  | succ n ih =>
    intro i st
    rw [getRandomValidPointerAux, getRandomValidPointerAux, hget, hdel]
    cases getRandomPointer items (ent.item i) with
    | error e => rfl
    | ok item =>
      dsimp only
      cases db2.get i item.path with
      | error e => rfl
      | ok pointer =>
        dsimp only
        cases pointer.expirationDate with
        | some expiration =>
          dsimp only
          by_cases hok : expiration.ok = false
          · rw [if_pos hok, if_pos hok]
          · rw [if_neg hok, if_neg hok]
            by_cases hlt : expiration.t < now
            · rw [if_pos hlt, if_pos hlt]
            · rw [if_neg hlt, if_neg hlt]
              by_cases hval : pointer.ptrType ≠ PointerType.remote ∨ pointer.segmentSize = 0
              · rw [if_pos hval, if_pos hval]
                exact ih _ _
              · rw [if_neg hval, if_neg hval]
        | none =>
          dsimp only
          by_cases hval : pointer.ptrType ≠ PointerType.remote ∨ pointer.segmentSize = 0
          · rw [if_pos hval, if_pos hval]
            exact ih _ _
          · rw [if_neg hval, if_neg hval]

theorem gRVPAux_all_invalid (db : PointerDB) (ent : Entropy) (now : Int)
    (items : List ListItem) (more : Bool) (r : Nat → Nat) (P : Nat → Pointer)
    (hne : items ≠ [])
    (hent : ∀ j, ent.item j = some (r j))
    (hget : ∀ j, db.get j (items.getD (r j % items.length) ⟨""⟩).path = .ok (P j))
    (hbad : ∀ j, (P j).ptrType ≠ PointerType.remote ∨ (P j).segmentSize = 0)
    (hlive : ∀ j, livePointer now (P j) = true) :
    ∀ rem i st, 1 ≤ rem →
      getRandomValidPointerAux db ent now items more rem i st
        = (.error .exhaustedSampling, ⟨pageLastPath items more⟩) := by
  intro rem
  induction rem with
  | zero => intro i st h; omega
  | succ n ih =>
    intro i st _
    rw [getRandomValidPointerAux]
    obtain ⟨hb, heq⟩ := getRandomPointer_ok items (r i) hne
    rw [hent i, heq]
    dsimp only
    have hgd : items.getD (r i % items.length) ⟨""⟩ = items.get ⟨r i % items.length, hb⟩ :=
      List.getD_eq_get items ⟨""⟩ hb
    have hget2 : db.get i (items.get ⟨r i % items.length, hb⟩).path = .ok (P i) := by
      rw [← hgd]; exact hget i
    rw [hget2]
    dsimp only
    have hokt : livePointer now (P i) = true := hlive i
    cases hexp : (P i).expirationDate with
    | some expiration =>
      dsimp only
      rw [livePointer, hexp] at hokt
      simp only [Bool.and_eq_true, Bool.not_eq_true', decide_eq_false_iff_not] at hokt
      rw [if_neg (by simp [hokt.1]), if_neg hokt.2, if_pos (hbad i)]
      cases n with
      | zero => rfl
      | succ m => exact ih _ _ (Nat.succ_le_succ (Nat.zero_le m))
    | none =>
      dsimp only
      rw [if_pos (hbad i)]
      cases n with
      | zero => rfl
      | succ m => exact ih _ _ (Nat.succ_le_succ (Nat.zero_le m))



/-- C1: every call of NextStripe that returns a non-nil Stripe with a nil
error returns a Segment that is a non-nil Remote pointer with nonzero
segment size and with no expiration timestamp strictly before the
expiration-check time.  The hypothesis `hres` records that the external
Redundancy Resolver rejects the absent redundancy scheme (as the real
eestream resolver does and as `resolveStripeSize`, modelled from the spec,
does). -/
theorem C1_success_is_valid_remote (ctx : Ctx) (db : PointerDB)
    (resolve : Option RedundancyScheme → Except Nat Int)
    (ent : Entropy) (now : Int) (st : CursorState) (stripe : Stripe)
    (st1 : CursorState)
    (hres : ∀ z, ¬ resolve none = Except.ok z)
    (h : NextStripe ctx db resolve ent now st = (.ok (some stripe), st1)) :
    ∃ p, stripe.Segment = some p ∧ p.ptrType = PointerType.remote ∧
      p.segmentSize ≠ 0 ∧ ∀ e, p.expirationDate = some e → ¬ e.t < now := by
  rw [NextStripe] at h
  cases hl : listPhase (fun k => db.list k st.lastPath) maxListAttempts 0 with
  | error e => simp only [hl] at h; simp at h
  | ok pm =>
    obtain ⟨items, more⟩ := pm
    simp only [hl] at h
    rcases hg : getRandomValidPointer db ent now items more maxGetAttempts st with ⟨res, st2⟩
    rw [hg] at h
    cases res with
    | error e => simp at h
    | ok popt =>
      dsimp only at h
      cases popt with
      | none =>
        rw [getRandomStripe] at h
        cases hr : resolve (getRedundancyOf none) with
        | error e => simp only [hr] at h; simp at h
        | ok z => exact absurd hr (hres z)
      | some p =>
        cases hs : getRandomStripe resolve ent (some p) with
        | error e => simp only [hs] at h; simp at h
        | ok idx =>
          simp only [hs] at h
          rw [Prod.mk.injEq] at h
          obtain ⟨h1, _⟩ := h
          injection h1 with h1
          injection h1 with h1
          obtain ⟨hty, hsz, hlive⟩ := gRVPAux_valid db ent now items more _ _ _ _ _ hg
          refine ⟨p, by rw [← h1], hty, hsz, ?_⟩
          intro e he
          rw [livePointer, he] at hlive
          simp only [Bool.and_eq_true, Bool.not_eq_true', decide_eq_false_iff_not] at hlive
          exact hlive.2

/-- Witness for C1 at a concrete input: the index `dbValid` holds one valid
Remote pointer; the hypothesis instance and the conclusion instance are
both exhibited. -/
theorem C1_success_is_valid_remote_witness :
    (∀ z, ¬ resolveStripeSize none = Except.ok z) ∧
    (NextStripe false dbValid resolveStripeSize entC 1000 st0
        = (.ok (some ⟨0, some ptrValid, ""⟩), ⟨""⟩)) ∧
    ∃ p, (Stripe.mk 0 (some ptrValid) "").Segment = some p ∧
      p.ptrType = PointerType.remote ∧ p.segmentSize ≠ 0 ∧
      ∀ e, p.expirationDate = some e → ¬ e.t < 1000 := by
  refine ⟨fun z hz => by exact Except.noConfusion hz, by rfl, ?_⟩
  exact C1_success_is_valid_remote false dbValid resolveStripeSize entC 1000 st0
    ⟨0, some ptrValid, ""⟩ ⟨""⟩ (fun z hz => by exact Except.noConfusion hz) (by rfl)

theorem getRandomStripe_bounds (resolve : Option RedundancyScheme → Except Nat Int)
    (ent : Entropy) (p : Pointer) (S Z idx : Int)
    (hS : p.segmentSize = S)
    (hZ : resolve (getRedundancyOf (some p)) = Except.ok Z)
    (h : getRandomStripe resolve ent (some p) = .ok idx) :
    (S < Z → idx = 0) ∧ (Z ≤ S → 0 ≤ idx ∧ idx < Int.tdiv S Z) := by
  rw [getRandomStripe, hZ] at h
  dsimp only at h
  have hsz : getSegmentSizeOf (some p) = S := hS
  rw [hsz] at h
  by_cases hlt : S < Z
  · rw [if_pos hlt] at h
    injection h with h
    exact ⟨fun _ => h.symm, fun hge => absurd hlt (not_lt.mpr hge)⟩
  · rw [if_neg hlt] at h
    refine ⟨fun hlt2 => absurd hlt2 hlt, fun _ => ?_⟩
    by_cases hz0 : Z = 0
    · rw [if_pos hz0] at h
      exact absurd h (by simp)
    · rw [if_neg hz0] at h
      rw [randInt.eq_def] at h
      by_cases hq : Int.tdiv S Z ≤ 0
      · rw [if_pos hq] at h
        exact absurd h (by simp)
      · rw [if_neg hq] at h
        cases hd : ent.stripe with
        | none => rw [hd] at h; exact absurd h (by simp)
        | some r =>
          rw [hd] at h
          injection h with h
          rw [← h]
          push_neg at hq
          exact ⟨Int.emod_nonneg _ (by omega), Int.emod_lt_of_pos _ hq⟩

theorem NextStripe_ok_stripe (ctx : Ctx) (db : PointerDB)
    (resolve : Option RedundancyScheme → Except Nat Int)
    (ent : Entropy) (now : Int) (st : CursorState) (stripe : Stripe)
    (st1 : CursorState)
    (h : NextStripe ctx db resolve ent now st = (.ok (some stripe), st1)) :
    getRandomStripe resolve ent stripe.Segment = .ok stripe.Index := by
  rw [NextStripe] at h
  cases hl : listPhase (fun k => db.list k st.lastPath) maxListAttempts 0 with
  | error e => simp only [hl] at h; simp at h
  | ok pm =>
    obtain ⟨items, more⟩ := pm
    simp only [hl] at h
    rcases hg : getRandomValidPointer db ent now items more maxGetAttempts st with ⟨res, st2⟩
    rw [hg] at h
    cases res with
    | error e => simp at h
    | ok popt =>
      dsimp only at h
      cases hs : getRandomStripe resolve ent popt with
      | error e => simp only [hs] at h; simp at h
      | ok idx =>
        simp only [hs] at h
        rw [Prod.mk.injEq] at h
        obtain ⟨h1, _⟩ := h
        injection h1 with h1
        injection h1 with h1
        rw [← h1]
        exact hs

/-- C2: for an accepted pointer with segment size S and resolved stripe
size Z, a stripe index returned by getRandomStripe is 0 whenever S < Z,
and otherwise lies in the half-open range from 0 up to the truncating
integer quotient S / Z (first conjunct); the same bounds hold for the
Index field of the Stripe a successful NextStripe call returns for its
accepted Segment (second conjunct). -/
theorem C2_stripe_index_bounds (ctx : Ctx) (db : PointerDB)
    (resolve : Option RedundancyScheme → Except Nat Int)
    (ent : Entropy) (now : Int) (st : CursorState)
    (p : Pointer) (S Z idx : Int) (stripe : Stripe) (st1 : CursorState) :
    ((p.segmentSize = S → resolve (getRedundancyOf (some p)) = Except.ok Z →
      getRandomStripe resolve ent (some p) = .ok idx →
      (S < Z → idx = 0) ∧ (Z ≤ S → 0 ≤ idx ∧ idx < Int.tdiv S Z))) ∧
    (NextStripe ctx db resolve ent now st = (.ok (some stripe), st1) →
      stripe.Segment = some p →
      resolve (getRedundancyOf (some p)) = Except.ok Z →
      (p.segmentSize < Z → stripe.Index = 0) ∧
      (Z ≤ p.segmentSize → 0 ≤ stripe.Index ∧
        stripe.Index < Int.tdiv p.segmentSize Z)) := by
  constructor
  · intro hS hZ h
    exact getRandomStripe_bounds resolve ent p S Z idx hS hZ h
  · intro h hseg hZ
    have hs := NextStripe_ok_stripe ctx db resolve ent now st stripe st1 h
    rw [hseg] at hs
    exact getRandomStripe_bounds resolve ent p p.segmentSize Z stripe.Index rfl hZ hs

/-- Witness for C2 at a concrete input: `ptrValid` has segment size 10 and
resolved stripe size 2, and the returned index 0 satisfies both bounds;
the concrete successful call carries the same bounds on its Index field. -/
theorem C2_stripe_index_bounds_witness :
    (ptrValid.segmentSize = 10 ∧
      resolveStripeSize (getRedundancyOf (some ptrValid)) = Except.ok 2 ∧
      getRandomStripe resolveStripeSize entC (some ptrValid) = .ok 0) ∧
    (((10 : Int) < 2 → (0 : Int) = 0) ∧
      ((2 : Int) ≤ 10 → (0 : Int) ≤ 0 ∧ (0 : Int) < Int.tdiv 10 2)) := by
  refine ⟨⟨rfl, by rfl, by rfl⟩, ?_⟩
  exact (C2_stripe_index_bounds false dbValid resolveStripeSize entC 1000 st0
    ptrValid 10 2 0 ⟨0, some ptrValid, ""⟩ ⟨""⟩).1 rfl (by rfl) (by rfl)

/-- C3 (code bug): on an index holding a single expired pointer whose
deletion succeeds, the selection phase does return the Go `(nil, nil)`
(first conjunct, matching the claim at the getRandomValidPointer level),
but NextStripe then feeds the nil pointer into getRandomStripe, so the
caller never sees `(nil, nil)`: with the spec-modelled resolver the call
returns a resolver error (second conjunct), and for every possible
behavior of the external resolver the result is never `(nil, nil)` (third
conjunct) - contradicting the claim, the spec contract and the src test
TestDeleteExpired, which requires `(nil, nil)` here. -/
theorem C3_expired_purge_never_nil_nil :
    (getRandomValidPointer dbExpired entC 1000 [⟨"xp"⟩] false maxGetAttempts st0
        = (.ok none, ⟨""⟩)) ∧
    (NextStripe false dbExpired resolveStripeSize entC 1000 st0
        = (.error (.resolverFail 0), ⟨""⟩)) ∧
    ∀ resolve : Option RedundancyScheme → Except Nat Int,
      isNilNil (NextStripe false dbExpired resolve entC 1000 st0) = false := by
  refine ⟨by rfl, by rfl, ?_⟩
  intro resolve
  have hred : NextStripe false dbExpired resolve entC 1000 st0
      = (match getRandomStripe resolve entC none with
         | .error e => (.error e, (⟨""⟩ : CursorState))
         | .ok index => (.ok (some ⟨index, none, ""⟩), (⟨""⟩ : CursorState))) := rfl
  rw [hred]
  cases hr : getRandomStripe resolve entC none with
  | error e => rfl
  | ok idx => rfl

theorem NextStripe_listPhase_err (ctx : Ctx) (db : PointerDB)
    (resolve : Option RedundancyScheme → Except Nat Int)
    (ent : Entropy) (now : Int) (st : CursorState) (e : AuditErr)
    (hl : listPhase (fun k => db.list k st.lastPath) maxListAttempts 0 = .error e) :
    NextStripe ctx db resolve ent now st = (.error e, st) := by
  rw [NextStripe]
  simp only [hl]

theorem NextStripe_snd (ctx : Ctx) (db : PointerDB)
    (resolve : Option RedundancyScheme → Except Nat Int)
    (ent : Entropy) (now : Int) (st : CursorState)
    (items : List ListItem) (more : Bool)
    (hl : listPhase (fun k => db.list k st.lastPath) maxListAttempts 0 = .ok (items, more)) :
    (NextStripe ctx db resolve ent now st).2
      = (getRandomValidPointer db ent now items more maxGetAttempts st).2 := by
  rw [NextStripe]
  simp only [hl]
  rcases hg : getRandomValidPointer db ent now items more maxGetAttempts st with ⟨res, st2⟩
  cases res with
  | error e => rfl
  | ok popt =>
    dsimp only
    cases getRandomStripe resolve ent popt with
    | error e => rfl
    | ok idx => rfl

/-- C4: on a call that enters the selection phase, the cursor state is
updated from the fetched page - to the path of the last item when the
listing reported more pages, and to the empty string otherwise (wrap-
around); and the listing of a call is interrogated only at the current
`lastPath` (the startAfter the code passes), so after a wrap-around the
next call lists from the beginning of the keyspace. -/
theorem C4_cursor_update (ctx : Ctx) (db db2 : PointerDB)
    (resolve : Option RedundancyScheme → Except Nat Int)
    (ent : Entropy) (now : Int) (st : CursorState)
    (items : List ListItem) (more : Bool) (r : Nat) :
    (listPhase (fun k => db.list k st.lastPath) maxListAttempts 0 = .ok (items, more) →
      ent.item 0 = some r →
      ((NextStripe ctx db resolve ent now st).2).lastPath
        = (if more = true then ((items.getLast?.map ListItem.path).getD "") else "")) ∧
    ((∀ k, db.list k st.lastPath = db2.list k st.lastPath) →
      db.get = db2.get → db.delete = db2.delete →
      NextStripe ctx db resolve ent now st = NextStripe ctx db2 resolve ent now st) := by
  constructor
  · intro hl hr
    have hne : items ≠ [] := listPhase_ok_ne_nil _ _ _ _ _ hl
    rw [NextStripe_snd ctx db resolve ent now st items more hl]
    rw [getRandomValidPointer]
    have h4 : (getRandomValidPointerAux db ent now items more maxGetAttempts 0 st).2
        = ⟨pageLastPath items more⟩ := gRVPAux_enter db ent now items more 3 0 st r hr hne
    rw [h4]
    cases more <;> simp [pageLastPath]
  · intro hlist hget hdel
    rw [NextStripe, NextStripe]
    rw [funext hlist]
    cases listPhase (fun k => db2.list k st.lastPath) maxListAttempts 0 with
    | error e => rfl
    | ok pm =>
      obtain ⟨its, m⟩ := pm
      dsimp only
      rw [getRandomValidPointer, getRandomValidPointer,
        gRVPAux_congr db db2 ent now its m hget hdel]

/-- Witness for C4: with the mixed two-item page (more pages remaining)
the final `lastPath` is the page's last path "vp"; and two indexes that
agree at the queried `lastPath` yield identical calls. -/
theorem C4_cursor_update_witness :
    ((NextStripe false dbMixed resolveStripeSize entC 1000 st0).2).lastPath = "vp" ∧
    NextStripe false dbValid resolveStripeSize entC 1000 st0
      = NextStripe false dbValid resolveStripeSize entC 1000 st0 := by
  constructor
  · exact (C4_cursor_update false dbMixed dbMixed resolveStripeSize entC 1000 st0
      [⟨"ip"⟩, ⟨"vp"⟩] true 0).1 (by rfl) rfl
  · exact (C4_cursor_update false dbValid dbValid resolveStripeSize entC 1000 st0
      [⟨"vp"⟩] false 0).2 (fun k => rfl) rfl rfl

/-- C10: a call failing in the listing phase (an underlying listing error
or Exhausted-Listing) returns with the cursor state exactly unchanged
(first conjunct); a call that enters the selection phase with a successful
first draw leaves `lastPath` set from the fetched page whatever happens
afterwards - in particular when it ends in `(nil, nil)`, a fetch or
timestamp error, a deletion failure, or Exhausted-Sampling (second
conjunct). -/
theorem C10_lastPath_frame (ctx : Ctx) (db : PointerDB)
    (resolve : Option RedundancyScheme → Except Nat Int)
    (ent : Entropy) (now : Int) (st : CursorState) :
    (∀ e, listPhase (fun k => db.list k st.lastPath) maxListAttempts 0 = .error e →
      NextStripe ctx db resolve ent now st = (.error e, st)) ∧
    (∀ items more r,
      listPhase (fun k => db.list k st.lastPath) maxListAttempts 0 = .ok (items, more) →
      ent.item 0 = some r →
      (NextStripe ctx db resolve ent now st).2 = ⟨pageLastPath items more⟩) := by
  constructor
  · intro e hl
    exact NextStripe_listPhase_err ctx db resolve ent now st e hl
  · intro items more r hl hr
    have hne : items ≠ [] := listPhase_ok_ne_nil _ _ _ _ _ hl
    rw [NextStripe_snd ctx db resolve ent now st items more hl]
    rw [getRandomValidPointer]
    exact gRVPAux_enter db ent now items more 3 0 st r hr hne

/-- Witness for C10: an always-empty listing leaves the state unchanged
with the Exhausted-Listing error; on the expired-pointer index, the
`(nil, error)` call still set `lastPath` from the page. -/
theorem C10_lastPath_frame_witness :
    NextStripe false dbEmptyList resolveStripeSize entC 1000 st0
      = (.error .exhaustedListing, st0) ∧
    (NextStripe false dbMixed resolveStripeSize entC 1000 ⟨"q"⟩).2
      = ⟨pageLastPath [⟨"ip"⟩, ⟨"vp"⟩] true⟩ := by
  constructor
  · exact (C10_lastPath_frame false dbEmptyList resolveStripeSize entC 1000 st0).1
      .exhaustedListing (by rfl)
  · exact (C10_lastPath_frame false dbMixed resolveStripeSize entC 1000 ⟨"q"⟩).2
      [⟨"ip"⟩, ⟨"vp"⟩] true 0 (by rfl) rfl


/-- C5: if every page request of a call returns an empty page, the request
is retried up to the `maxListAttempts = 4` budget and the call then fails
with the Exhausted-Listing error, leaving the state unchanged (first
conjunct: only the first four listing responses are constrained); the
first non-empty page - even of size one - ends the listing phase
immediately with that page, whatever any later response would be (second
conjunct). -/
theorem C5_listing_retries (ctx : Ctx) (db : PointerDB)
    (resolve : Option RedundancyScheme → Except Nat Int)
    (ent : Entropy) (now : Int) (st : CursorState)
    (listFn : Nat → Except Nat (List ListItem × Bool))
    (items : List ListItem) (more : Bool) :
    ((∀ k, k < maxListAttempts → ∃ b, db.list k st.lastPath = .ok ([], b)) →
      NextStripe ctx db resolve ent now st = (.error .exhaustedListing, st)) ∧
    (listFn 0 = .ok (items, more) → items ≠ [] →
      listPhase listFn maxListAttempts 0 = .ok (items, more)) := by
  constructor
  · intro hall
    have hl : listPhase (fun k => db.list k st.lastPath) maxListAttempts 0
        = .error .exhaustedListing :=
      listPhase_all_empty _ maxListAttempts 0 (fun j hj => by
        simpa using hall j hj)
    exact NextStripe_listPhase_err ctx db resolve ent now st _ hl
  · intro h0 hne
    exact listPhase_first_nonempty listFn 3 0 items more h0 hne

/-- Witness for C5: the always-empty index yields Exhausted-Listing, and a
size-one first page ends the phase at once. -/
theorem C5_listing_retries_witness :
    NextStripe false dbEmptyList resolveStripeSize entC 1000 st0
      = (.error .exhaustedListing, st0) ∧
    listPhase (fun _ => .ok ([⟨"vp"⟩], false)) maxListAttempts 0
      = .ok ([⟨"vp"⟩], false) := by
  constructor
  · exact (C5_listing_retries false dbEmptyList resolveStripeSize entC 1000 st0
      (fun _ => .ok ([], false)) [] false).1
      (fun k _ => ⟨false, rfl⟩)
  · exact (C5_listing_retries false dbEmptyList resolveStripeSize entC 1000 st0
      (fun _ => .ok ([⟨"vp"⟩], false)) [⟨"vp"⟩] false).2 rfl (by simp)

/-- C6: when all four selection attempts draw paths whose fetched pointers
are invalid (not Remote, or zero segment size) but not expired, the call
fails with the Exhausted-Sampling error, even though valid pointers may
sit elsewhere in the page or keyspace (the hypotheses constrain only the
four drawn paths); and no deletion is involved: the conclusion holds for
every behavior of the index's delete operation (second conjunct). -/
theorem C6_all_invalid_exhausts (ctx : Ctx) (db : PointerDB)
    (resolve : Option RedundancyScheme → Except Nat Int)
    (ent : Entropy) (now : Int) (st : CursorState)
    (items : List ListItem) (more : Bool) (r : Nat → Nat) (P : Nat → Pointer)
    (hlist : db.list 0 st.lastPath = .ok (items, more)) (hne : items ≠ [])
    (hent : ∀ j, ent.item j = some (r j))
    (hget : ∀ j, db.get j (items.getD (r j % items.length) ⟨""⟩).path = .ok (P j))
    (hbad : ∀ j, (P j).ptrType ≠ PointerType.remote ∨ (P j).segmentSize = 0)
    (hlive : ∀ j, livePointer now (P j) = true) :
    NextStripe ctx db resolve ent now st
      = (.error .exhaustedSampling, ⟨pageLastPath items more⟩) ∧
    ∀ dl, NextStripe ctx ⟨db.list, db.get, dl⟩ resolve ent now st
      = (.error .exhaustedSampling, ⟨pageLastPath items more⟩) := by
  have key : ∀ db2 : PointerDB, db2.list = db.list → db2.get = db.get →
      NextStripe ctx db2 resolve ent now st
        = (.error .exhaustedSampling, ⟨pageLastPath items more⟩) := by
    intro db2 hli hge
    rw [NextStripe]
    have hl : listPhase (fun k => db2.list k st.lastPath) maxListAttempts 0
        = .ok (items, more) := by
      rw [hli]
      exact listPhase_first_nonempty _ 3 0 items more hlist hne
    simp only [hl]
    rw [getRandomValidPointer]
    have hget2 : ∀ j, db2.get j (items.getD (r j % items.length) ⟨""⟩).path = .ok (P j) := by
      rw [hge]; exact hget
    have hrun := gRVPAux_all_invalid db2 ent now items more r P hne hent hget2 hbad hlive
      maxGetAttempts 0 st (by decide)
    rw [hrun]
  exact ⟨key db rfl rfl, fun dl => key ⟨db.list, db.get, dl⟩ rfl rfl⟩

/-- Witness for C6: on the mixed page, zero-valued draws always select the
inline pointer at "ip", so the call exhausts sampling although the valid
pointer at "vp" sits in the same page; replacing the delete behavior does
not change the outcome. -/
theorem C6_all_invalid_exhausts_witness :
    NextStripe false dbMixed resolveStripeSize entC 1000 st0
      = (.error .exhaustedSampling, ⟨"vp"⟩) ∧
    NextStripe false ⟨dbMixed.list, dbMixed.get, fun _ => some 7⟩
        resolveStripeSize entC 1000 st0
      = (.error .exhaustedSampling, ⟨"vp"⟩) := by
  have h := C6_all_invalid_exhausts false dbMixed resolveStripeSize entC 1000 st0
    [⟨"ip"⟩, ⟨"vp"⟩] true (fun _ => 0) (fun _ => ptrInline)
    rfl (by simp) (fun j => rfl) (fun j => rfl) (fun j => by simp [ptrInline])
    (fun j => rfl)
  exact ⟨h.1, h.2 (fun _ => some 7)⟩


theorem NextStripe_ok_segmentPath (ctx : Ctx) (db : PointerDB)
    (resolve : Option RedundancyScheme → Except Nat Int)
    (ent : Entropy) (now : Int) (st : CursorState) (stripe : Stripe)
    (st1 : CursorState)
    (h : NextStripe ctx db resolve ent now st = (.ok (some stripe), st1)) :
    stripe.SegmentPath = "" := by
  rw [NextStripe] at h
  cases hl : listPhase (fun k => db.list k st.lastPath) maxListAttempts 0 with
  | error e => simp only [hl] at h; simp at h
  | ok pm =>
    obtain ⟨items, more⟩ := pm
    simp only [hl] at h
    rcases hg : getRandomValidPointer db ent now items more maxGetAttempts st with ⟨res, st2⟩
    rw [hg] at h
    cases res with
    | error e => simp at h
    | ok popt =>
      dsimp only at h
      cases hs : getRandomStripe resolve ent popt with
      | error e => simp only [hs] at h; simp at h
      | ok idx =>
        simp only [hs] at h
        rw [Prod.mk.injEq] at h
        obtain ⟨h1, _⟩ := h
        injection h1 with h1
        injection h1 with h1
        rw [← h1]

/-- C7 (code bug): the returned Stripe's SegmentPath never carries the
path of the selected pointer: the Go `var path storj.Path` of line 54 is
never assigned, so the field is always the empty string (first conjunct,
for every successful call).  On the concrete index whose only pointer
lives at path "vp", the successful call returns SegmentPath "" (second
conjunct) although the selected path "vp" is not empty (third conjunct) -
against the spec, which requires the field to be populated with the
actually selected key and flags the unpopulated field as an oversight. -/
theorem C7_segmentPath_never_populated :
    (∀ (ctx : Ctx) (db : PointerDB)
       (resolve : Option RedundancyScheme → Except Nat Int)
       (ent : Entropy) (now : Int) (st : CursorState) (stripe : Stripe)
       (st1 : CursorState),
       NextStripe ctx db resolve ent now st = (.ok (some stripe), st1) →
       stripe.SegmentPath = "") ∧
    NextStripe false dbValid resolveStripeSize entC 1000 st0
      = (.ok (some ⟨0, some ptrValid, ""⟩), ⟨""⟩) ∧
    (("vp" : String) == "") = false := by
  exact ⟨fun ctx db resolve ent now st stripe st1 h =>
    NextStripe_ok_segmentPath ctx db resolve ent now st stripe st1 h, by rfl, by rfl⟩

/-- Witness for C7: the general first conjunct instantiated at the
concrete successful call. -/
theorem C7_segmentPath_never_populated_witness :
    NextStripe false dbValid resolveStripeSize entC 1000 st0
      = (.ok (some ⟨0, some ptrValid, ""⟩), ⟨""⟩) ∧
    (Stripe.mk 0 (some ptrValid) "").SegmentPath = "" := by
  refine ⟨by rfl, ?_⟩
  exact C7_segmentPath_never_populated.1 false dbValid resolveStripeSize entC 1000 st0
    ⟨0, some ptrValid, ""⟩ ⟨""⟩ (by rfl)

/-- C8 (code bug): the cancellation input is ignored: the Go body never
passes ctx to the listing, fetch or delete operations (none of which take
it), so the result of every call is independent of the cancellation state
(first conjunct, proved by reflexivity because the embedded body never
consults ctx), and a call made with an already-cancelled input still
completes normally instead of failing with a cancellation error (second
conjunct) - against the spec, which requires every blocking sub-operation
to honor cancellation. -/
theorem C8_cancellation_ignored :
    (∀ (c c2 : Ctx) (db : PointerDB)
       (resolve : Option RedundancyScheme → Except Nat Int)
       (ent : Entropy) (now : Int) (st : CursorState),
       NextStripe c db resolve ent now st = NextStripe c2 db resolve ent now st) ∧
    NextStripe true dbValid resolveStripeSize entC 1000 st0
      = (.ok (some ⟨0, some ptrValid, ""⟩), ⟨""⟩) :=
  ⟨fun _ _ _ _ _ _ _ => rfl, rfl⟩

/-- C9: the random page-item draw is only reached with a non-empty page -
the listing phase only ever succeeds with a non-empty item list (first
conjunct) - and on a non-empty page a successful draw always yields an
item of the page: the non-positive-bound panic and the out-of-range index
branch of getRandomPointer are unreachable from NextStripe (second
conjunct). -/
theorem C9_draw_panic_unreachable :
    (∀ (listFn : Nat → Except Nat (List ListItem × Bool))
       (fuel k : Nat) (items : List ListItem) (more : Bool),
       listPhase listFn fuel k = .ok (items, more) → items ≠ []) ∧
    (∀ (items : List ListItem) (d : Nat), items ≠ [] →
       ∃ it, it ∈ items ∧ getRandomPointer items (some d) = .ok it) := by
  constructor
  · intro listFn fuel k items more h
    exact listPhase_ok_ne_nil listFn fuel k items more h
  · intro items d hne
    obtain ⟨hb, heq⟩ := getRandomPointer_ok items d hne
    exact ⟨_, List.get_mem _ _ _, heq⟩

/-- Witness for C9: the singleton page is non-empty and the draw returns
its item. -/
theorem C9_draw_panic_unreachable_witness :
    ([⟨"vp"⟩] : List ListItem) ≠ [] ∧
    ∃ it, it ∈ ([⟨"vp"⟩] : List ListItem) ∧
      getRandomPointer [⟨"vp"⟩] (some 0) = .ok it := by
  refine ⟨by simp, ?_⟩
  exact C9_draw_panic_unreachable.2 [⟨"vp"⟩] 0 (by simp)

end Audit
